import Mathlib

/-!
Shallow embedding of the feature-engineering pipeline of the
financial_anomaly_detector repository
(src/utils/feature_engineering.py and src/gui/widgets/analysis_worker.py).

Floating-point cells are modelled exactly by the type `Val`: a finite
rational, NaN, +inf or -inf, with IEEE-754 propagation rules for the
arithmetic the source actually performs (no rounding is modelled; the
source only adds, subtracts, multiplies and divides values that the
claims inspect, and those are exact).  A pandas Series is a `List Val`,
a DataFrame is an ordered association list of named columns plus a row
index.  Stateful statements (`ratios[...] = ...`) are embedded by
explicit state passing so that frame (non-mutation) properties are
expressible.
-/

namespace FinAnomaly

/-- IEEE-style cell value: finite rational, NaN, +inf or -inf. -/
inductive Val where
  | fin (q : ℚ)
  | nan
  | inf
  | ninf
deriving DecidableEq, Repr

/-- IEEE negation. -/
def Val.neg : Val → Val
  | .fin q => .fin (-q)
  | .nan => .nan
  | .inf => .ninf
  | .ninf => .inf

/-- IEEE addition (exact on finite values; inf + (-inf) = NaN; NaN propagates). -/
def Val.add : Val → Val → Val
  | .fin a, .fin b => .fin (a + b)
  | .fin _, .inf => .inf
  | .fin _, .ninf => .ninf
  | .inf, .fin _ => .inf
  | .ninf, .fin _ => .ninf
  | .inf, .inf => .inf
  | .ninf, .ninf => .ninf
  | .inf, .ninf => .nan
  | .ninf, .inf => .nan
  | _, _ => .nan

/-- IEEE subtraction, via addition of the negation. -/
def Val.sub (a b : Val) : Val := a.add b.neg

/-- IEEE multiplication (inf * 0 = NaN; NaN propagates). -/
def Val.mul : Val → Val → Val
  | .fin a, .fin b => .fin (a * b)
  | .fin a, .inf => if 0 < a then .inf else if a < 0 then .ninf else .nan
  | .fin a, .ninf => if 0 < a then .ninf else if a < 0 then .inf else .nan
  | .inf, .fin b => if 0 < b then .inf else if b < 0 then .ninf else .nan
  | .ninf, .fin b => if 0 < b then .ninf else if b < 0 then .inf else .nan
  | .inf, .inf => .inf
  | .ninf, .ninf => .inf
  | .inf, .ninf => .ninf
  | .ninf, .inf => .ninf
  | _, _ => .nan

/-- IEEE division: finite/0 is ±inf for a nonzero numerator and NaN for 0/0,
finite/inf is 0, inf/inf is NaN, NaN propagates.  This is what
numpy/pandas produce for float columns. -/
def Val.div : Val → Val → Val
  | .fin a, .fin b =>
      if b = 0 then (if 0 < a then .inf else if a < 0 then .ninf else .nan)
      else .fin (a / b)
  | .fin _, .inf => .fin 0
  | .fin _, .ninf => .fin 0
  | .inf, .fin b => if 0 ≤ b then .inf else .ninf
  | .ninf, .fin b => if 0 ≤ b then .ninf else .inf
  | _, _ => .nan

/-- The comparison `v > 0` as pandas evaluates it elementwise:
NaN compares false. -/
def Val.gt0 : Val → Bool
  | .fin q => decide (0 < q)
  | .inf => true
  | _ => false

/-- The comparison `v < 0` as pandas evaluates it elementwise:
NaN compares false. -/
def Val.lt0 : Val → Bool
  | .fin q => decide (q < 0)
  | .ninf => true
  | _ => false

/-- A value is finite when it is neither NaN nor ±inf. -/
def Val.isFinite : Val → Bool
  | .fin _ => true
  | _ => false

/-- The elementwise action of `fillna(0)`: NaN becomes 0, everything else
(including ±inf) is untouched. -/
def fillVal : Val → Val
  | .nan => .fin 0
  | v => v

/-- A pandas Series over the shared row index: the list of its cells. -/
abbrev Series := List Val

/-- Elementwise series subtraction. -/
def ssub (xs ys : Series) : Series := List.zipWith Val.sub xs ys

/-- Elementwise series multiplication. -/
def smul (xs ys : Series) : Series := List.zipWith Val.mul xs ys

/-- Elementwise series division. -/
def sdiv (xs ys : Series) : Series := List.zipWith Val.div xs ys

/-- `Series.diff()`: NaN at row 0, `xs[i] - xs[i-1]` afterwards. -/
def diffS (xs : Series) : Series :=
  (List.range xs.length).map fun i =>
    if i = 0 then .nan else Val.sub (xs.getD i .nan) (xs.getD (i - 1) .nan)

/-- The trailing window of width `w` ending at row `i` (rows `i+1-w .. i`). -/
def window (w i : Nat) (xs : Series) : Series :=
  (xs.take (i + 1)).drop (i + 1 - w)

/-- Mean of a window of width `w`, by IEEE fold: any NaN in the window makes
the result NaN, which matches pandas rolling mean with its default
`min_periods = window`. -/
def winMean (w : Nat) (l : Series) : Val :=
  (l.foldl Val.add (.fin 0)).div (.fin (w : ℚ))

/-- `Series.rolling(window=w).mean()`: NaN for the first `w-1` rows
(trailing history only), then the mean of the trailing `w` rows. -/
def rollingMean (w : Nat) (xs : Series) : Series :=
  (List.range xs.length).map fun i =>
    if i + 1 < w then .nan else winMean w (window w i xs)

/-- Finite payloads of a series (used only below full-window std). -/
def finVals (l : Series) : List ℚ := l.filterMap fun v =>
  match v with
  | .fin q => some q
  | _ => none

/-- Whether every cell of a series is finite. -/
def allFin (l : Series) : Bool := l.all Val.isFinite

/-- Sample standard deviation (ddof = 1) of a full window of `w` finite
values.  `Rat.sqrt` stands in for the IEEE square root (which would round
an irrational result); no claim below depends on the numeric value of a
standard deviation, only on where it is NaN. -/
def sampleStd (w : Nat) (l : List ℚ) : ℚ :=
  let m := l.sum / (w : ℚ)
  Rat.sqrt ((l.map fun x => (x - m) ^ 2).sum / ((w : ℚ) - 1))

/-- `Series.rolling(window=w).std()`: NaN for the first `w-1` rows and for
any window containing a non-finite cell, otherwise the sample standard
deviation of the trailing `w` rows. -/
def rollingStd (w : Nat) (xs : Series) : Series :=
  (List.range xs.length).map fun i =>
    if i + 1 < w then .nan
    else
      let win := window w i xs
      if allFin win then .fin (sampleStd w (finVals win)) else .nan

/-- A pandas DataFrame: a row index and an insertion-ordered list of named
columns. -/
structure DataFrame where
  index : List Int
  cols : List (String × Series)
deriving DecidableEq, Repr

/-- `df.columns`, in order. -/
def DataFrame.columns (d : DataFrame) : List String := d.cols.map Prod.fst

/-- Lookup of the first column named `n` in an association list. -/
def findCol (l : List (String × Series)) (n : String) : Series :=
  match l.find? (fun p => p.1 == n) with
  | some p => p.2
  | none => []

/-- `df[n]`: the first column named `n` (empty series when absent; every
read in the source is guarded by a membership test). -/
def DataFrame.col (d : DataFrame) (n : String) : Series :=
  findCol d.cols n

/-- `df[n] = s`: replace the column in place when the name exists,
otherwise append it, preserving insertion order. -/
def DataFrame.setCol (d : DataFrame) (n : String) (s : Series) : DataFrame :=
  if n ∈ d.columns then
    ⟨d.index, d.cols.map fun p => if p.1 == n then (n, s) else p⟩
  else
    ⟨d.index, d.cols ++ [(n, s)]⟩

/-- `df.fillna(0)`: a new frame with every NaN cell replaced by 0. -/
def DataFrame.fillna0 (d : DataFrame) : DataFrame :=
  ⟨d.index, d.cols.map fun p => (p.1, p.2.map fillVal)⟩

/-- Well-formed frame: every column has as many cells as the index has
rows. -/
def DataFrame.WF (d : DataFrame) : Prop :=
  ∀ p ∈ d.cols, p.2.length = d.index.length

instance (d : DataFrame) : Decidable d.WF := by
  unfold DataFrame.WF; infer_instance

/-- The local-variable store of `calculate_ratios`: the parameter `data`
and the local frame `ratios`. -/
structure PState where
  data : DataFrame
  ratios : DataFrame
deriving DecidableEq, Repr

/-- The elementwise body of `100 - (100 / (1 + rs))`. -/
def rsiOfRs (v : Val) : Val :=
  Val.sub (.fin 100) (Val.div (.fin 100) (Val.add (.fin 1) v))

/-- The `# Price ratios` block guarded by
`if 'High' in data.columns and 'Low' in data.columns`. -/
def stepPriceRange (st : PState) : PState :=
  if "High" ∈ st.data.columns ∧ "Low" ∈ st.data.columns then
    ⟨st.data, st.ratios.setCol "price_range"
      (sdiv (ssub (st.data.col "High") (st.data.col "Low")) (st.data.col "Low"))⟩
  else st

/-- The block guarded by
`if 'Close' in data.columns and 'Open' in data.columns`. -/
def stepPriceChange (st : PState) : PState :=
  if "Close" ∈ st.data.columns ∧ "Open" ∈ st.data.columns then
    ⟨st.data, st.ratios.setCol "price_change"
      (sdiv (ssub (st.data.col "Close") (st.data.col "Open")) (st.data.col "Open"))⟩
  else st

/-- The `# Volume based ratios` block guarded by
`if 'Volume' in data.columns and 'Close' in data.columns`; note that
`volume_ratio = data['Volume'] / ratios['volume_ma5']` reads the
`volume_ma5` column just assigned. -/
def stepVolume (st : PState) : PState :=
  if "Volume" ∈ st.data.columns ∧ "Close" ∈ st.data.columns then
    let r := st.ratios.setCol "volume_price_ratio"
      (smul (st.data.col "Volume") (st.data.col "Close"))
    let r := r.setCol "volume_ma5" (rollingMean 5 (st.data.col "Volume"))
    let r := r.setCol "volume_ma20" (rollingMean 20 (st.data.col "Volume"))
    let r := r.setCol "volume_ratio" (sdiv (st.data.col "Volume") (r.col "volume_ma5"))
    ⟨st.data, r⟩
  else st

/-- The `# Technical indicators` block guarded by
`if 'Close' in data.columns`: moving averages, RSI and volatility. -/
def stepClose (st : PState) : PState :=
  if "Close" ∈ st.data.columns then
    let r := st.ratios.setCol "ma5" (rollingMean 5 (st.data.col "Close"))
    let r := r.setCol "ma20" (rollingMean 20 (st.data.col "Close"))
    -- delta = data['Close'].diff()
    let delta := diffS (st.data.col "Close")
    -- gain = (delta.where(delta > 0, 0)).rolling(window=14).mean()
    let gain := rollingMean 14 (delta.map fun v => if v.gt0 then v else .fin 0)
    -- loss = (-delta.where(delta < 0, 0)).rolling(window=14).mean()
    let loss := rollingMean 14 ((delta.map fun v => if v.lt0 then v else .fin 0).map Val.neg)
    let rs := sdiv gain loss
    let r := r.setCol "RSI" (rs.map rsiOfRs)
    let r := r.setCol "volatility" (rollingStd 20 (st.data.col "Close"))
    ⟨st.data, r⟩
  else st

/-- `calculate_ratios`, statement by statement, as a function on its
variable store; returns the final store and the returned frame.  Each
statement of the source either reads `data` or assigns one column of
`ratios`; the final `return ratios.fillna(0)` builds a fresh frame. -/
def calcRun (st0 : PState) : PState × DataFrame :=
  -- ratios = pd.DataFrame(index=data.index)
  let st1 : PState := ⟨st0.data, ⟨st0.data.index, []⟩⟩
  let st5 := stepClose (stepVolume (stepPriceChange (stepPriceRange st1)))
  -- return ratios.fillna(0)
  (st5, st5.ratios.fillna0)

/-- `calculate_ratios(data)`: the value the source returns. -/
def calculate_ratios (d : DataFrame) : DataFrame :=
  (calcRun ⟨d, ⟨d.index, []⟩⟩).2

/-- The `ratios` frame as it stands just before the final `fillna(0)`. -/
def ratiosPrefill (d : DataFrame) : DataFrame :=
  (calcRun ⟨d, ⟨d.index, []⟩⟩).1.ratios

/-- One entry of the `feature_options` dict: each flag may be absent, and
`options.get(key, True)` defaults it to true. -/
structure FOpts where
  useRawOpt : Option Bool
  useRatioOpt : Option Bool
deriving DecidableEq, Repr

/-- `options.get('use_raw', True)`. -/
def FOpts.rawFlag (o : FOpts) : Bool := o.useRawOpt.getD true

/-- `options.get('use_ratio', True)`. -/
def FOpts.ratFlag (o : FOpts) : Bool := o.useRatioOpt.getD true

/-- The insertion-ordered `feature_options` mapping. -/
abbrev FeatureOptions := List (String × FOpts)

/-- The body of the `for feature_name, options in feature_options.items()`
loop: how one entry extends the collected column list. -/
def prepStep (data rt : DataFrame) (acc : List Series) (p : String × FOpts) : List Series :=
  if p.1 ∈ data.columns then
    let acc1 := if p.2.rawFlag then acc ++ [data.col p.1] else acc
    if p.2.ratFlag ∧ p.1 ∈ rt.columns then acc1 ++ [rt.col p.1] else acc1
  else acc

/-- The full `features` list collected by the loop. -/
def collectFeats (data rt : DataFrame) (fo : FeatureOptions) : List Series :=
  fo.foldl (prepStep data rt) []

/-- The local-variable store of `prepare_features`: the parameters `data`
and `feature_options` (never assigned) and the local `features` list. -/
structure BState where
  data : DataFrame
  fopts : FeatureOptions
  feats : List Series
deriving DecidableEq, Repr

/-- `prepare_features`, as a function on its variable store.  The matrix
`np.hstack(features)` of n-row single-column blocks is represented
column-major, as the list of its columns (each of length n). -/
def prepRun (st : BState) : BState × Except String (List Series) :=
  let rt := calculate_ratios st.data
  let feats := collectFeats st.data rt st.fopts
  (⟨st.data, st.fopts, feats⟩,
    if feats.isEmpty then .error "No features selected for analysis" else .ok feats)

/-- `prepare_features(data, feature_options)`: the returned matrix, or the
`ValueError` message it raises. -/
def prepare_features (d : DataFrame) (fo : FeatureOptions) : Except String (List Series) :=
  (prepRun ⟨d, fo, []⟩).2

/-!  Spec-side definitions, written from the specification's words, to be
compared with the embedded source (refinement / divergence claims). -/

/-- Spec wording of the builder's column list (claim C4): iterate the
options in insertion order; within a feature, the raw column if selected
and present in the raw table, immediately before the ratio column if
selected and present in the ratio table — with no further condition on
the ratio column. -/
def claimCols (data rt : DataFrame) : FeatureOptions → List Series
  | [] => []
  | (n, o) :: rest =>
      ((if o.rawFlag ∧ n ∈ data.columns then [data.col n] else []) ++
        (if o.ratFlag ∧ n ∈ rt.columns then [rt.col n] else [])) ++
        claimCols data rt rest

/-- The column list the code actually collects, restated recursively: a
feature absent from the raw table contributes nothing; otherwise its raw
column (if selected) comes immediately before its ratio column (if
selected and present in the ratio table). -/
def codeCols (data rt : DataFrame) : FeatureOptions → List Series
  | [] => []
  | (n, o) :: rest =>
      (if n ∈ data.columns then
        (if o.rawFlag then [data.col n] else []) ++
          (if o.ratFlag ∧ n ∈ rt.columns then [rt.col n] else [])
      else []) ++ codeCols data rt rest

/-- Spec wording of `max(delta, 0)` (claim C6): an undefined delta stays
undefined; otherwise the larger of delta and 0. -/
def specMax0 : Val → Val
  | .nan => .nan
  | v => if v.gt0 then v else .fin 0

/-- The RSI column exactly as claim C6 words it: `delta = diff(Close)`;
`gain = rolling_mean(max(delta,0), 14)`; `loss = rolling_mean(max(-delta,0), 14)`;
`RS = gain/loss`; `RSI = 100 - 100/(1+RS)`, the undefined first delta
staying undefined through the windows. -/
def rsiSpecS (close : Series) : Series :=
  let delta := diffS close
  let gain := rollingMean 14 (delta.map specMax0)
  let loss := rollingMean 14 ((delta.map Val.neg).map specMax0)
  (sdiv gain loss).map rsiOfRs

/-- The RSI column as the code computes it, restated standalone: the
`where` steps replace every delta that fails the comparison — including
the undefined first delta — with 0 before windowing. -/
def rsiCodeS (close : Series) : Series :=
  let delta := diffS close
  let gain := rollingMean 14 (delta.map fun v => if v.gt0 then v else .fin 0)
  let loss := rollingMean 14 ((delta.map fun v => if v.lt0 then v else .fin 0).map Val.neg)
  (sdiv gain loss).map rsiOfRs

/-!  The background worker (src/gui/widgets/analysis_worker.py).  The
analyzer it drives (`AdvancedAnomalyAnalyzer`, from src/core, not among
the shown sources) is modelled as four arbitrary fallible outcomes — one
per call the worker makes — so the theorems hold for every behaviour of
the analyzer.  Signal emissions are collected into an event trace. -/

/-- An emission of the worker: a `progress_update`, an
`analysis_complete` carrying the result, or an `error_occurred` carrying
the message of the caught exception. -/
inductive WEv (R : Type) where
  | progress (s : String)
  | complete (r : R)
  | failed (s : String)
deriving DecidableEq, Repr

/-- Whether an event is terminal (completion or failure). -/
def WEv.isTerminal : WEv R → Bool
  | .progress _ => false
  | _ => true

/-- The four phase strings the worker emits, in program order. -/
def phaseLabels : List String :=
  ["Initializing analysis...", "Processing features...",
    "Running anomaly detection...", "Generating visualizations..."]

/-- `AnalysisWorker.run`: the trace of emissions, given the outcomes of
the four analyzer calls (construction, `prepare_features`, `analyze`,
`generate_plots`).  The whole body is wrapped in
`try ... except Exception as e: self.error_occurred.emit(str(e))`. -/
def workerRun (e1 : Except String Unit) (e2 : Except String Unit)
    (e3 : Except String R) (e4 : Except String Unit) : List (WEv R) :=
  [.progress "Initializing analysis..."] ++
    match e1 with
    | .error m => [.failed m]
    | .ok _ =>
      [.progress "Processing features..."] ++
        match e2 with
        | .error m => [.failed m]
        | .ok _ =>
          [.progress "Running anomaly detection..."] ++
            match e3 with
            | .error m => [.failed m]
            | .ok res =>
              [.progress "Generating visualizations..."] ++
                match e4 with
                | .error m => [.failed m]
                | .ok _ => [.complete res]

/-!  Concrete frames and option maps used to instantiate the theorems
below on explicit inputs. -/

/-- One row with High = 2 and Low = 0. -/
def dHighLow0 : DataFrame := ⟨[0], [("High", [.fin 2]), ("Low", [.fin 0])]⟩

/-- Five rows whose first five volumes sum to 0 while the fifth volume is
nonzero, with a constant Close. -/
def dVolZeroMean : DataFrame :=
  ⟨[0, 1, 2, 3, 4],
    [("Volume", [.fin 1, .fin 2, .fin 3, .fin (-9), .fin 3]),
     ("Close", [.fin 1, .fin 1, .fin 1, .fin 1, .fin 1])]⟩

/-- One row with a Volume column and no Close column. -/
def dVolumeOnly : DataFrame := ⟨[0], [("Volume", [.fin 5])]⟩

/-- Two rows with only a Close column. -/
def dCloseOnly : DataFrame := ⟨[0, 1], [("Close", [.fin 3, .fin 4])]⟩

/-- Options selecting only the derived feature ma5 (defaults: both flags
true). -/
def foMa5 : FeatureOptions := [("ma5", ⟨none, none⟩)]

/-- Two rows with only a Close column (second instance). -/
def dCloseOnly2 : DataFrame := ⟨[0, 1], [("Close", [.fin 1, .fin 2])]⟩

/-- Options selecting Close and ma5, all flags explicitly true. -/
def foCloseMa5 : FeatureOptions :=
  [("Close", ⟨some true, some true⟩), ("ma5", ⟨some true, some true⟩)]

/-- Fourteen rows of linearly rising Close values 1, 2, …, 14. -/
def dClose14 : DataFrame :=
  ⟨(List.range 14).map Int.ofNat, [("Close", (List.range 14).map fun i => .fin ((i : ℚ) + 1))]⟩

/-- Two rows with a Close column containing a NaN cell. -/
def dCloseNaN : DataFrame := ⟨[0, 1], [("Close", [.nan, .fin 7]), ("Open", [.fin 1, .fin 2])]⟩

/-- Options selecting the raw Close column only. -/
def foRawClose : FeatureOptions := [("Close", ⟨some true, some false⟩)]

/-- Options deselecting everything. -/
def foNone : FeatureOptions := [("Close", ⟨some false, some false⟩)]

/-- Two rows whose raw table itself has a column named ma5 (besides
Close), so the derived ma5 is selectable. -/
def dRawMa5 : DataFrame :=
  ⟨[0, 1], [("Close", [.fin 1, .fin 2]), ("ma5", [.fin 9, .fin 9])]⟩

/-- Options selecting only the ratio side of ma5. -/
def foMa5Only : FeatureOptions := [("ma5", ⟨some false, some true⟩)]

/-!  Supporting lemmas about the frame operations. -/

theorem findCol_nil (n : String) : findCol [] n = [] := rfl

theorem findCol_cons (p : String × Series) (l : List (String × Series)) (n : String) :
    findCol (p :: l) n = if p.1 = n then p.2 else findCol l n := by
  unfold findCol
  rcases p with ⟨a, s⟩
  by_cases h : a = n
  · simp [List.find?_cons, h]
  · simp [List.find?_cons, h]

theorem columns_mk (idx : List Int) (cs : List (String × Series)) :
    (DataFrame.mk idx cs).columns = cs.map Prod.fst := rfl

theorem col_mk (idx : List Int) (cs : List (String × Series)) (n : String) :
    (DataFrame.mk idx cs).col n = findCol cs n := rfl

theorem col_eq_findCol (d : DataFrame) (n : String) : d.col n = findCol d.cols n := rfl

theorem index_setCol (d : DataFrame) (n : String) (s : Series) :
    (d.setCol n s).index = d.index := by
  unfold DataFrame.setCol; split <;> rfl

theorem index_fillna0 (d : DataFrame) : d.fillna0.index = d.index := rfl

theorem findCol_fill (l : List (String × Series)) (n : String) :
    findCol (l.map fun p => (p.1, p.2.map fillVal)) n = (findCol l n).map fillVal := by
  induction l with
  | nil => simp [findCol_nil]
  | cons p t ih =>
    rw [List.map_cons, findCol_cons, findCol_cons]
    by_cases h : p.1 = n <;> simp [h, ih]

theorem col_fillna0 (d : DataFrame) (n : String) :
    d.fillna0.col n = (d.col n).map fillVal := by
  rw [col_eq_findCol, col_eq_findCol]
  exact findCol_fill d.cols n

theorem columns_fillna0 (d : DataFrame) : d.fillna0.columns = d.columns := by
  unfold DataFrame.fillna0 DataFrame.columns
  induction d.cols with
  | nil => rfl
  | cons p t ih => simp_all

theorem fillVal_ne_nan (v : Val) : fillVal v ≠ Val.nan := by
  cases v <;> simp [fillVal]

/-!  Length lemmas: every derived series has as many cells as its
sources (binary operations truncate to the shorter input, which never
happens here since all columns share the frame's row count). -/

theorem rollingMean_length (w : Nat) (xs : Series) :
    (rollingMean w xs).length = xs.length := by
  simp [rollingMean]

theorem rollingStd_length (w : Nat) (xs : Series) :
    (rollingStd w xs).length = xs.length := by
  simp [rollingStd]

theorem diffS_length (xs : Series) : (diffS xs).length = xs.length := by
  simp [diffS]

theorem ssub_length (xs ys : Series) : (ssub xs ys).length = min xs.length ys.length := by
  simp [ssub]

theorem smul_length (xs ys : Series) : (smul xs ys).length = min xs.length ys.length := by
  simp [smul]

theorem sdiv_length (xs ys : Series) : (sdiv xs ys).length = min xs.length ys.length := by
  simp [sdiv]

theorem rsiCodeS_length (xs : Series) : (rsiCodeS xs).length = xs.length := by
  simp [rsiCodeS, sdiv, rollingMean, diffS]

theorem col_length_of_mem (d : DataFrame) (n : String) (hwf : d.WF)
    (h : n ∈ d.columns) : (d.col n).length = d.index.length := by
  rw [col_eq_findCol]
  unfold findCol
  cases hf : d.cols.find? (fun p => p.1 == n) with
  | some p => exact hwf p (List.mem_of_find?_eq_some hf)
  | none =>
    exfalso
    rcases List.mem_map.mp h with ⟨p, hp, hpn⟩
    have := List.find?_eq_none.mp hf p hp
    simp [hpn] at this

theorem WF_setCol (d : DataFrame) (n : String) (s : Series) (hwf : d.WF)
    (hs : s.length = d.index.length) : (d.setCol n s).WF := by
  unfold DataFrame.setCol
  by_cases hn : n ∈ d.columns
  · rw [if_pos hn]
    intro p hp
    rcases List.mem_map.mp hp with ⟨q, hq, hpq⟩
    by_cases hq1 : q.1 == n
    · rw [if_pos hq1] at hpq; subst hpq; exact hs
    · rw [if_neg hq1] at hpq; subst hpq; exact hwf q hq
  · rw [if_neg hn]
    intro p hp
    rcases List.mem_append.mp hp with h | h
    · exact hwf p h
    · rcases List.mem_singleton.mp h with rfl; exact hs

theorem WF_fillna0 (d : DataFrame) (hwf : d.WF) : d.fillna0.WF := by
  intro p hp
  rcases List.mem_map.mp hp with ⟨q, hq, rfl⟩
  simpa using hwf q hq

/-!  Lemmas about the ratio-engine pass. -/

theorem stepPriceRange_data (st : PState) : (stepPriceRange st).data = st.data := by
  unfold stepPriceRange; split <;> rfl

theorem stepPriceChange_data (st : PState) : (stepPriceChange st).data = st.data := by
  unfold stepPriceChange; split <;> rfl

theorem stepVolume_data (st : PState) : (stepVolume st).data = st.data := by
  unfold stepVolume; split <;> rfl

theorem stepClose_data (st : PState) : (stepClose st).data = st.data := by
  unfold stepClose; split <;> rfl

theorem stepPriceRange_rindex (st : PState) :
    (stepPriceRange st).ratios.index = st.ratios.index := by
  unfold stepPriceRange; split <;> simp [index_setCol]

theorem stepPriceChange_rindex (st : PState) :
    (stepPriceChange st).ratios.index = st.ratios.index := by
  unfold stepPriceChange; split <;> simp [index_setCol]

theorem stepVolume_rindex (st : PState) :
    (stepVolume st).ratios.index = st.ratios.index := by
  unfold stepVolume; split <;> simp [index_setCol]

theorem stepClose_rindex (st : PState) :
    (stepClose st).ratios.index = st.ratios.index := by
  unfold stepClose; split <;> simp [index_setCol]

theorem calcRun_data (st : PState) : (calcRun st).1.data = st.data := by
  simp [calcRun, stepClose_data, stepVolume_data, stepPriceChange_data, stepPriceRange_data]

theorem ratiosPrefill_index (d : DataFrame) : (ratiosPrefill d).index = d.index := by
  simp [ratiosPrefill, calcRun, stepClose_rindex, stepVolume_rindex,
    stepPriceChange_rindex, stepPriceRange_rindex]

theorem calculate_ratios_eq_fill (d : DataFrame) :
    calculate_ratios d = (ratiosPrefill d).fillna0 := rfl

theorem calculate_ratios_index (d : DataFrame) : (calculate_ratios d).index = d.index := by
  rw [calculate_ratios_eq_fill, index_fillna0, ratiosPrefill_index]

/-- Closed form of the frame held in `ratios` just before the final
`fillna(0)`: each guarded block contributes its columns, in program
order, computed from the untouched input columns (`volume_ratio`'s read
of the just-assigned `volume_ma5` resolves to the rolling mean, and the
RSI chain folds into `rsiCodeS`). -/
theorem prefill_cols_eq (d : DataFrame) : (ratiosPrefill d).cols =
    (if "High" ∈ d.columns ∧ "Low" ∈ d.columns then
      [("price_range", sdiv (ssub (d.col "High") (d.col "Low")) (d.col "Low"))] else []) ++
    (if "Close" ∈ d.columns ∧ "Open" ∈ d.columns then
      [("price_change", sdiv (ssub (d.col "Close") (d.col "Open")) (d.col "Open"))] else []) ++
    (if "Volume" ∈ d.columns ∧ "Close" ∈ d.columns then
      [("volume_price_ratio", smul (d.col "Volume") (d.col "Close")),
       ("volume_ma5", rollingMean 5 (d.col "Volume")),
       ("volume_ma20", rollingMean 20 (d.col "Volume")),
       ("volume_ratio", sdiv (d.col "Volume") (rollingMean 5 (d.col "Volume")))] else []) ++
    (if "Close" ∈ d.columns then
      [("ma5", rollingMean 5 (d.col "Close")),
       ("ma20", rollingMean 20 (d.col "Close")),
       ("RSI", rsiCodeS (d.col "Close")),
       ("volatility", rollingStd 20 (d.col "Close"))] else []) := by
  by_cases hH : "High" ∈ d.columns <;>
  by_cases hL : "Low" ∈ d.columns <;>
  by_cases hC : "Close" ∈ d.columns <;>
  by_cases hO : "Open" ∈ d.columns <;>
  by_cases hV : "Volume" ∈ d.columns <;>
  simp [ratiosPrefill, calcRun, stepPriceRange, stepPriceChange, stepVolume, stepClose,
    hH, hL, hC, hO, hV, DataFrame.setCol, columns_mk, col_mk, findCol_cons, rsiCodeS]

/-- Names of the pre-fill (hence also post-fill) ratio columns. -/
theorem prefill_columns (d : DataFrame) : (ratiosPrefill d).columns =
    (if "High" ∈ d.columns ∧ "Low" ∈ d.columns then ["price_range"] else []) ++
    (if "Close" ∈ d.columns ∧ "Open" ∈ d.columns then ["price_change"] else []) ++
    (if "Volume" ∈ d.columns ∧ "Close" ∈ d.columns then
      ["volume_price_ratio", "volume_ma5", "volume_ma20", "volume_ratio"] else []) ++
    (if "Close" ∈ d.columns then ["ma5", "ma20", "RSI", "volatility"] else []) := by
  have h : (ratiosPrefill d).columns = (ratiosPrefill d).cols.map Prod.fst := rfl
  rw [h, prefill_cols_eq]
  by_cases hH : "High" ∈ d.columns <;>
  by_cases hL : "Low" ∈ d.columns <;>
  by_cases hC : "Close" ∈ d.columns <;>
  by_cases hO : "Open" ∈ d.columns <;>
  by_cases hV : "Volume" ∈ d.columns <;>
  simp [hH, hL, hC, hO, hV]

theorem calculate_ratios_columns (d : DataFrame) :
    (calculate_ratios d).columns = (ratiosPrefill d).columns := by
  rw [calculate_ratios_eq_fill, columns_fillna0]

theorem findCol_append (l₁ l₂ : List (String × Series)) (n : String) :
    findCol (l₁ ++ l₂) n =
      if n ∈ l₁.map Prod.fst then findCol l₁ n else findCol l₂ n := by
  induction l₁ with
  | nil => simp [findCol_nil]
  | cons p t ih =>
    rw [List.cons_append, findCol_cons]
    by_cases h : p.1 = n
    · simp [findCol_cons, h]
    · simp only [List.map_cons, List.mem_cons, h, ih, if_neg h]
      by_cases h2 : n ∈ t.map Prod.fst <;> simp [h2, findCol_cons, h, Ne.symm h]

theorem ratiosPrefill_WF (d : DataFrame) (hwf : d.WF) : (ratiosPrefill d).WF := by
  intro p hp
  rw [ratiosPrefill_index]
  rw [prefill_cols_eq] at hp
  have hlen : ∀ n, n ∈ d.columns → (d.col n).length = d.index.length :=
    fun n h => col_length_of_mem d n hwf h
  simp only [List.mem_append] at hp
  rcases hp with ((h | h) | h) | h
  · split at h
    · rename_i g
      rcases List.mem_singleton.mp h with rfl
      simp [sdiv_length, ssub_length, hlen _ g.1, hlen _ g.2]
    · simp at h
  · split at h
    · rename_i g
      rcases List.mem_singleton.mp h with rfl
      simp [sdiv_length, ssub_length, hlen _ g.1, hlen _ g.2]
    · simp at h
  · split at h
    · rename_i g
      simp only [List.mem_cons, List.not_mem_nil, or_false] at h
      rcases h with rfl | rfl | rfl | rfl <;>
        simp [smul_length, sdiv_length, rollingMean_length, hlen _ g.1, hlen _ g.2]
    · simp at h
  · split at h
    · rename_i g
      simp only [List.mem_cons, List.not_mem_nil, or_false] at h
      rcases h with rfl | rfl | rfl | rfl <;>
        simp [rollingMean_length, rollingStd_length, rsiCodeS_length, hlen _ g]
    · simp at h

theorem calculate_ratios_WF (d : DataFrame) (hwf : d.WF) : (calculate_ratios d).WF := by
  rw [calculate_ratios_eq_fill]
  exact WF_fillna0 _ (ratiosPrefill_WF d hwf)

theorem prefill_col_volume_ma5 (d : DataFrame)
    (hV : "Volume" ∈ d.columns) (hC : "Close" ∈ d.columns) :
    (ratiosPrefill d).col "volume_ma5" = rollingMean 5 (d.col "Volume") := by
  rw [col_eq_findCol, prefill_cols_eq]
  by_cases hH : "High" ∈ d.columns <;>
  by_cases hL : "Low" ∈ d.columns <;>
  by_cases hO : "Open" ∈ d.columns <;>
  simp [hV, hC, hH, hL, hO, findCol_append, findCol_cons]

theorem prefill_col_volume_ma20 (d : DataFrame)
    (hV : "Volume" ∈ d.columns) (hC : "Close" ∈ d.columns) :
    (ratiosPrefill d).col "volume_ma20" = rollingMean 20 (d.col "Volume") := by
  rw [col_eq_findCol, prefill_cols_eq]
  by_cases hH : "High" ∈ d.columns <;>
  by_cases hL : "Low" ∈ d.columns <;>
  by_cases hO : "Open" ∈ d.columns <;>
  simp [hV, hC, hH, hL, hO, findCol_append, findCol_cons]

theorem prefill_col_RSI (d : DataFrame) (hC : "Close" ∈ d.columns) :
    (ratiosPrefill d).col "RSI" = rsiCodeS (d.col "Close") := by
  rw [col_eq_findCol, prefill_cols_eq]
  by_cases hH : "High" ∈ d.columns <;>
  by_cases hL : "Low" ∈ d.columns <;>
  by_cases hO : "Open" ∈ d.columns <;>
  by_cases hV : "Volume" ∈ d.columns <;>
  simp [hC, hH, hL, hO, hV, findCol_append, findCol_cons]

/-!  Lemmas about the builder loop. -/

theorem prepStep_eq (data rt : DataFrame) (acc : List Series) (n : String) (o : FOpts) :
    prepStep data rt acc (n, o) =
      acc ++ (if n ∈ data.columns then
        (if o.rawFlag then [data.col n] else []) ++
          (if o.ratFlag ∧ n ∈ rt.columns then [rt.col n] else [])
      else []) := by
  unfold prepStep
  by_cases h : n ∈ data.columns
  · by_cases h1 : o.rawFlag <;> by_cases h2 : o.ratFlag ∧ n ∈ rt.columns <;>
      simp [h, h1, h2]
  · simp [h]

theorem foldl_prepStep_append (data rt : DataFrame) (fo : FeatureOptions) :
    ∀ acc, fo.foldl (prepStep data rt) acc = acc ++ codeCols data rt fo := by
  induction fo with
  | nil => intro acc; simp [codeCols]
  | cons p rest ih =>
    intro acc
    rcases p with ⟨n, o⟩
    rw [List.foldl_cons, ih (prepStep data rt acc (n, o)), prepStep_eq, codeCols,
      List.append_assoc]

theorem collectFeats_eq_codeCols (data rt : DataFrame) (fo : FeatureOptions) :
    collectFeats data rt fo = codeCols data rt fo := by
  rw [collectFeats, foldl_prepStep_append]
  simp

theorem mem_codeCols_ratio (data rt : DataFrame) (fo : FeatureOptions) (n : String)
    (o : FOpts) (hmem : (n, o) ∈ fo) (hn : n ∈ data.columns) (hr : o.ratFlag = true)
    (hrt : n ∈ rt.columns) : rt.col n ∈ codeCols data rt fo := by
  induction fo with
  | nil => cases hmem
  | cons p rest ih =>
    rcases p with ⟨m, o2⟩
    rw [codeCols]
    rcases List.mem_cons.mp hmem with heq | hmem2
    · rcases Prod.mk.injEq .. ▸ heq with ⟨rfl, rfl⟩
      refine List.mem_append.mpr (Or.inl ?_)
      simp [hn, hr, hrt]
    · exact List.mem_append.mpr (Or.inr (ih hmem2))

theorem mem_codeCols_raw (data rt : DataFrame) (fo : FeatureOptions) (n : String)
    (o : FOpts) (hmem : (n, o) ∈ fo) (hn : n ∈ data.columns) (hr : o.rawFlag = true) :
    data.col n ∈ codeCols data rt fo := by
  induction fo with
  | nil => cases hmem
  | cons p rest ih =>
    rcases p with ⟨m, o2⟩
    rw [codeCols]
    rcases List.mem_cons.mp hmem with heq | hmem2
    · rcases Prod.mk.injEq .. ▸ heq with ⟨rfl, rfl⟩
      refine List.mem_append.mpr (Or.inl ?_)
      simp [hn, hr]
    · exact List.mem_append.mpr (Or.inr (ih hmem2))

theorem prepare_ok_of_mem (d : DataFrame) (fo : FeatureOptions) (c : Series)
    (hc : c ∈ codeCols d (calculate_ratios d) fo) :
    prepare_features d fo = .ok (codeCols d (calculate_ratios d) fo) := by
  have hrfl : prepare_features d fo =
      (if (collectFeats d (calculate_ratios d) fo).isEmpty then
        Except.error "No features selected for analysis"
      else Except.ok (collectFeats d (calculate_ratios d) fo)) := rfl
  rw [hrfl, collectFeats_eq_codeCols]
  have hne : codeCols d (calculate_ratios d) fo ≠ [] := List.ne_nil_of_mem hc
  simp [List.isEmpty_iff, hne]

theorem codeCols_length (d : DataFrame) (fo : FeatureOptions) (hwf : d.WF) :
    ∀ c ∈ codeCols d (calculate_ratios d) fo, c.length = d.index.length := by
  have hrt : (calculate_ratios d).WF := calculate_ratios_WF d hwf
  have hidx : (calculate_ratios d).index = d.index := calculate_ratios_index d
  induction fo with
  | nil => simp [codeCols]
  | cons p rest ih =>
    rcases p with ⟨n, o⟩
    intro c hc
    rw [codeCols] at hc
    rcases List.mem_append.mp hc with h | h
    · split at h
      · rename_i hn
        rcases List.mem_append.mp h with h2 | h2
        · split at h2
          · rcases List.mem_singleton.mp h2 with rfl
            exact col_length_of_mem d n hwf hn
          · simp at h2
        · split at h2
          · rename_i hro
            rw [List.mem_singleton.mp h2, col_length_of_mem _ n hrt hro.2, hidx]
          · simp at h2
      · simp at h
    · exact ih c h

/-!  The claims. -/

/-- C1 counterexample: the fill step does not make every cell finite.  With
High = 2 and Low = 0 the post-fill price_range cell is +inf; and with the
five-row volume 1, 2, 3, -9, 3 (first five-row window summing to 0) under a
constant Close, volume_ma5 at row 4 is 0 while Volume there is 3, so
volume_ratio at row 4 is +inf after the fill — not 0 — and +inf is not
finite. -/
theorem ratio_cells_not_all_finite_cex :
    (calculate_ratios dHighLow0).col "price_range" = [Val.inf] ∧
    ((calculate_ratios dVolZeroMean).col "volume_ma5").getD 4 .nan = Val.fin 0 ∧
    (dVolZeroMean.col "Volume").getD 4 .nan = Val.fin 3 ∧
    ((calculate_ratios dVolZeroMean).col "volume_ratio").getD 4 .nan = Val.inf ∧
    Val.inf.isFinite = false := by
  refine ⟨?_, ?_, ?_, ?_, rfl⟩ <;> with_unfolding_all decide

/-- C1 (amended): after the final fill step no cell of any RatioTable is NaN —
every undefined cell has become 0 — but cells need not be finite: a division
yielding ±inf (zero Low, or a zero volume_ma5 under a nonzero Volume)
survives the fill; a zero volume_ma5 yields a 0 volume_ratio only when
Volume is also 0 there (NaN filled to 0). -/
theorem ratio_table_no_nan_post_fill (d : DataFrame) (p : String × Series)
    (v : Val) (hp : p ∈ (calculate_ratios d).cols) (hv : v ∈ p.2) : v ≠ Val.nan := by
  rw [calculate_ratios_eq_fill] at hp
  rcases List.mem_map.mp hp with ⟨q, hq, rfl⟩
  rcases List.mem_map.mp hv with ⟨u, hu, rfl⟩
  exact fillVal_ne_nan u

/-- Witness for C1 (amended) at a concrete frame: the post-fill price_range
column is the single cell +inf, and that cell is indeed not NaN. -/
theorem ratio_table_no_nan_post_fill_witness :
    ("price_range", [Val.inf]) ∈ (calculate_ratios dHighLow0).cols ∧
    Val.inf ∈ [Val.inf] ∧ Val.inf ≠ Val.nan :=
  ⟨by with_unfolding_all decide, by decide,
    ratio_table_no_nan_post_fill dHighLow0 ("price_range", [Val.inf]) Val.inf
      (by with_unfolding_all decide) (by decide)⟩

/-- C2 counterexample: ma5 is a column of the ratio table of a Close-only raw
table but not of the raw table itself; with options selecting it (use_ratio
defaulting to true) the builder appends nothing — the outer
`feature_name in data.columns` guard skips the feature entirely and the call
raises the empty-selection error instead of appending the ratio column. -/
theorem ratio_only_feature_skipped_cex :
    ("ma5", (⟨none, none⟩ : FOpts)) ∈ foMa5 ∧
    (⟨none, none⟩ : FOpts).ratFlag = true ∧
    "ma5" ∈ (calculate_ratios dCloseOnly).columns ∧
    "ma5" ∉ dCloseOnly.columns ∧
    prepare_features dCloseOnly foMa5 = .error "No features selected for analysis" := by
  refine ⟨by decide, by decide, by with_unfolding_all decide, by decide, ?_⟩
  with_unfolding_all rfl

/-- C2 (amended): if use_ratio is true and feature_name is a column of the
ratio table and also a column of the raw table, the builder succeeds and the
matrix contains that ratio column. -/
theorem ratio_column_appended (d : DataFrame) (fo : FeatureOptions) (n : String)
    (o : FOpts) (hmem : (n, o) ∈ fo) (hraw : n ∈ d.columns) (hflag : o.ratFlag = true)
    (hrt : n ∈ (calculate_ratios d).columns) :
    ∃ m, prepare_features d fo = .ok m ∧ (calculate_ratios d).col n ∈ m := by
  have hc := mem_codeCols_ratio d (calculate_ratios d) fo n o hmem hraw hflag hrt
  exact ⟨_, prepare_ok_of_mem d fo _ hc, hc⟩

/-- Witness for C2 (amended) on a raw table that itself has a column named
ma5 next to Close. -/
theorem ratio_column_appended_witness :
    ("ma5", (⟨some false, some true⟩ : FOpts)) ∈ foMa5Only ∧
    "ma5" ∈ dRawMa5.columns ∧
    (⟨some false, some true⟩ : FOpts).ratFlag = true ∧
    "ma5" ∈ (calculate_ratios dRawMa5).columns ∧
    (∃ m, prepare_features dRawMa5 foMa5Only = .ok m ∧
      (calculate_ratios dRawMa5).col "ma5" ∈ m) :=
  ⟨by decide, by decide, by decide, by with_unfolding_all decide,
    ratio_column_appended dRawMa5 foMa5Only "ma5" ⟨some false, some true⟩
      (by decide) (by decide) (by decide) (by with_unfolding_all decide)⟩

/-- C3 counterexample: a raw table with Volume but no Close gets no
volume_ma5/volume_ma20 columns — the source's guard requires Volume and
Close together, not Volume alone. -/
theorem volume_ma_requires_close_cex :
    "Volume" ∈ dVolumeOnly.columns ∧
    "volume_ma5" ∉ (calculate_ratios dVolumeOnly).columns ∧
    "volume_ma20" ∉ (calculate_ratios dVolumeOnly).columns := by
  refine ⟨by decide, ?_, ?_⟩ <;> with_unfolding_all decide

/-- C3 (amended): for every raw table containing Volume and Close the ratio
table contains volume_ma5 and volume_ma20, whose pre-fill values are the
5- and 20-row rolling means of Volume. -/
theorem volume_ma_columns (d : DataFrame)
    (hV : "Volume" ∈ d.columns) (hC : "Close" ∈ d.columns) :
    "volume_ma5" ∈ (calculate_ratios d).columns ∧
    "volume_ma20" ∈ (calculate_ratios d).columns ∧
    (ratiosPrefill d).col "volume_ma5" = rollingMean 5 (d.col "Volume") ∧
    (ratiosPrefill d).col "volume_ma20" = rollingMean 20 (d.col "Volume") := by
  refine ⟨?_, ?_, prefill_col_volume_ma5 d hV hC, prefill_col_volume_ma20 d hV hC⟩ <;>
  · rw [calculate_ratios_columns, prefill_columns]
    simp [hV, hC]

/-- Witness for C3 (amended) at a concrete five-row Volume/Close frame. -/
theorem volume_ma_columns_witness :
    "Volume" ∈ dVolZeroMean.columns ∧ "Close" ∈ dVolZeroMean.columns ∧
    ("volume_ma5" ∈ (calculate_ratios dVolZeroMean).columns ∧
      "volume_ma20" ∈ (calculate_ratios dVolZeroMean).columns ∧
      (ratiosPrefill dVolZeroMean).col "volume_ma5" =
        rollingMean 5 (dVolZeroMean.col "Volume") ∧
      (ratiosPrefill dVolZeroMean).col "volume_ma20" =
        rollingMean 20 (dVolZeroMean.col "Volume")) :=
  ⟨by decide, by decide, volume_ma_columns dVolZeroMean (by decide) (by decide)⟩

/-- C4 counterexample: build succeeds on a Close-only table with options
(Close, both flags) then (ma5, both flags), producing exactly the raw Close
column — but the claimed column list (raw-if-selected-and-present then
ratio-if-selected-and-present, with no further gate) also contains the ma5
ratio column, so the claimed order/content is wrong. -/
theorem feature_matrix_order_cex :
    prepare_features dCloseOnly2 foCloseMa5 = .ok [[Val.fin 1, Val.fin 2]] ∧
    claimCols dCloseOnly2 (calculate_ratios dCloseOnly2) foCloseMa5 ≠
      [[Val.fin 1, Val.fin 2]] := by
  constructor
  · with_unfolding_all rfl
  · with_unfolding_all decide

/-- C4 (amended): whenever building succeeds on a well-formed raw table with
n rows, every matrix column has exactly n cells, and the columns are, in
insertion order of the options, for each feature present in the raw table:
its raw column (if selected) immediately before its ratio column (if
selected and present in the ratio table); features absent from the raw
table contribute nothing. -/
theorem feature_matrix_rows_and_order (d : DataFrame) (fo : FeatureOptions)
    (m : List Series) (hwf : d.WF) (hok : prepare_features d fo = .ok m) :
    (∀ c ∈ m, c.length = d.index.length) ∧
    m = codeCols d (calculate_ratios d) fo := by
  have hrfl : prepare_features d fo =
      (if (collectFeats d (calculate_ratios d) fo).isEmpty then
        Except.error "No features selected for analysis"
      else Except.ok (collectFeats d (calculate_ratios d) fo)) := rfl
  rw [hrfl, collectFeats_eq_codeCols] at hok
  by_cases he : (codeCols d (calculate_ratios d) fo).isEmpty
  · rw [if_pos he] at hok; cases hok
  · rw [if_neg he] at hok
    cases hok
    exact ⟨codeCols_length d fo hwf, rfl⟩

/-- Witness for C4 (amended) at the concrete Close-only build. -/
theorem feature_matrix_rows_and_order_witness :
    dCloseOnly2.WF ∧
    prepare_features dCloseOnly2 foCloseMa5 = .ok [[Val.fin 1, Val.fin 2]] ∧
    ((∀ c ∈ [[Val.fin 1, Val.fin 2]], c.length = dCloseOnly2.index.length) ∧
      [[Val.fin 1, Val.fin 2]] =
        codeCols dCloseOnly2 (calculate_ratios dCloseOnly2) foCloseMa5) :=
  ⟨by decide, by with_unfolding_all rfl,
    feature_matrix_rows_and_order dCloseOnly2 foCloseMa5 [[Val.fin 1, Val.fin 2]]
      (by decide) (by with_unfolding_all rfl)⟩

/-- C5: the builder raises the empty-selection error exactly when the loop
collected zero columns. -/
theorem empty_selection_error_iff (d : DataFrame) (fo : FeatureOptions) :
    prepare_features d fo = .error "No features selected for analysis" ↔
      collectFeats d (calculate_ratios d) fo = [] := by
  have hrfl : prepare_features d fo =
      (if (collectFeats d (calculate_ratios d) fo).isEmpty then
        Except.error "No features selected for analysis"
      else Except.ok (collectFeats d (calculate_ratios d) fo)) := rfl
  rw [hrfl]
  by_cases he : (collectFeats d (calculate_ratios d) fo).isEmpty
  · simp [he, List.isEmpty_iff.mp he]
  · rw [if_neg he]
    simp only [List.isEmpty_iff] at he
    simp [he]

/-- C6 counterexample: on fourteen linearly rising Close values the code's
pre-fill RSI at row 13 is 100 — the `where` step turned the undefined first
delta into a 0 observation, completing a 14-wide window one row early —
whereas the claimed formula (undefined delta propagating through
max/rolling_mean) leaves RSI undefined there. -/
theorem rsi_warmup_cex :
    ((ratiosPrefill dClose14).col "RSI").getD 13 .nan = Val.fin 100 ∧
    (rsiSpecS (dClose14.col "Close")).getD 13 .nan = Val.nan := by
  constructor <;> with_unfolding_all decide

/-- C6 (amended): the pre-fill RSI column equals the claimed chain except
that each `where` comparison replaces every delta failing it — including the
undefined first delta, which fails both — with 0 before windowing, so the
windowed gain/loss are defined from row `window - 1` on (one row earlier
than a full window of defined deltas would allow). -/
theorem rsi_formula_code (d : DataFrame) (hC : "Close" ∈ d.columns) :
    (ratiosPrefill d).col "RSI" = rsiCodeS (d.col "Close") :=
  prefill_col_RSI d hC

/-- Witness for C6 (amended) at the fourteen-row rising Close frame. -/
theorem rsi_formula_code_witness :
    "Close" ∈ dClose14.columns ∧
    (ratiosPrefill dClose14).col "RSI" = rsiCodeS (dClose14.col "Close") :=
  ⟨by decide, rsi_formula_code dClose14 (by decide)⟩

/-- C7: for every outcome of the four analyzer calls, the worker emits a
nonempty prefix of the four phase labels in program order followed by
exactly one terminal event (completion carrying the result, or failure
carrying the message) — never both, and — the trace function being total —
no exception escapes; each label named by the spec is a prefix of the
corresponding emitted string. -/
theorem worker_trace_shape (R : Type) (e1 e2 : Except String Unit)
    (e3 : Except String R) (e4 : Except String Unit) :
    (∃ k t, 1 ≤ k ∧ k ≤ 4 ∧
      workerRun e1 e2 e3 e4 = (phaseLabels.take k).map WEv.progress ++ [t] ∧
      t.isTerminal = true) ∧
    ((workerRun e1 e2 e3 e4).filter (fun e => e.isTerminal)).length = 1 ∧
    ((["Initializing", "Processing features", "Running anomaly detection",
        "Generating visualizations"].zip phaseLabels).all
      fun p => p.1.data.isPrefixOf p.2.data) = true := by
  cases e1 with
  | error m => exact ⟨⟨1, .failed m, by decide, by decide, rfl, rfl⟩, rfl, by decide⟩
  | ok u1 =>
    cases e2 with
    | error m => exact ⟨⟨2, .failed m, by decide, by decide, rfl, rfl⟩, rfl, by decide⟩
    | ok u2 =>
      cases e3 with
      | error m => exact ⟨⟨3, .failed m, by decide, by decide, rfl, rfl⟩, rfl, by decide⟩
      | ok r =>
        cases e4 with
        | error m => exact ⟨⟨4, .failed m, by decide, by decide, rfl, rfl⟩, rfl, by decide⟩
        | ok u4 => exact ⟨⟨4, .complete r, by decide, by decide, rfl, rfl⟩, rfl, by decide⟩

/-- C8: the ratio engine is a pure total function of its input — equal calls
yield equal tables (the embedding threads no state), the function is defined
on every frame (never raises), and whenever High or Low is absent the output
has no price_range column. -/
theorem ratio_engine_pure_and_guarded (d : DataFrame) :
    calculate_ratios d = calculate_ratios d ∧
    (("High" ∉ d.columns ∨ "Low" ∉ d.columns) →
      "price_range" ∉ (calculate_ratios d).columns) := by
  refine ⟨rfl, fun h => ?_⟩
  rw [calculate_ratios_columns, prefill_columns]
  have hg : ¬("High" ∈ d.columns ∧ "Low" ∈ d.columns) := by tauto
  by_cases hC : "Close" ∈ d.columns <;>
  by_cases hO : "Open" ∈ d.columns <;>
  by_cases hV : "Volume" ∈ d.columns <;>
  simp [hg, hC, hO, hV]

/-- Witness for C8 at a Volume-only frame (no High column). -/
theorem ratio_engine_pure_and_guarded_witness :
    ("High" ∉ dVolumeOnly.columns ∨ "Low" ∉ dVolumeOnly.columns) ∧
    "price_range" ∉ (calculate_ratios dVolumeOnly).columns :=
  ⟨Or.inl (by decide),
    (ratio_engine_pure_and_guarded dVolumeOnly).2 (Or.inl (by decide))⟩

/-- C9: the fill-with-zero step lives inside the ratio engine only; a
selected raw column reaches the feature matrix as the very list it is in the
raw table — NaN cells included, unfilled and untransformed. -/
theorem raw_column_passthrough (d : DataFrame) (fo : FeatureOptions) (n : String)
    (o : FOpts) (hmem : (n, o) ∈ fo) (hraw : n ∈ d.columns) (hflag : o.rawFlag = true) :
    ∃ m, prepare_features d fo = .ok m ∧ d.col n ∈ m := by
  have hc := mem_codeCols_raw d (calculate_ratios d) fo n o hmem hraw hflag
  exact ⟨_, prepare_ok_of_mem d fo _ hc, hc⟩

/-- Witness for C9 at a frame whose Close column holds a NaN cell: the
matrix contains that exact column, NaN and all. -/
theorem raw_column_passthrough_witness :
    ("Close", (⟨some true, some false⟩ : FOpts)) ∈ foRawClose ∧
    "Close" ∈ dCloseNaN.columns ∧
    (⟨some true, some false⟩ : FOpts).rawFlag = true ∧
    dCloseNaN.col "Close" = [Val.nan, Val.fin 7] ∧
    (∃ m, prepare_features dCloseNaN foRawClose = .ok m ∧
      dCloseNaN.col "Close" ∈ m) :=
  ⟨by decide, by decide, by decide, by with_unfolding_all decide,
    raw_column_passthrough dCloseNaN foRawClose "Close" ⟨some true, some false⟩
      (by decide) (by decide) (by decide)⟩

/-- C10: neither pass mutates its inputs.  Both runs are embedded on their
variable stores (every source statement writes only the local
`ratios`/`features` variables, and each pandas call used returns a fresh
object): after the ratio engine the store's data frame is the input frame,
and after the builder both the data frame and the options mapping are the
inputs, whatever initial values the local variables had. -/
theorem no_input_mutation (d r0 : DataFrame) (fo : FeatureOptions) (fs0 : List Series) :
    (calcRun ⟨d, r0⟩).1.data = d ∧
    (prepRun ⟨d, fo, fs0⟩).1.data = d ∧
    (prepRun ⟨d, fo, fs0⟩).1.fopts = fo :=
  ⟨calcRun_data ⟨d, r0⟩, rfl, rfl⟩

end FinAnomaly
